import Mathlib

/-!
Shallow embedding of the Security-Discord-Bot repository (src/bot.py).

Modelling conventions:
* Discord ids (guild ids, user ids) are `Int`.
* Message timestamps (`now_utc().timestamp()`, a real-valued Unix time)
  are modelled as rationals `ℚ`.
* The MySQL tables `guild_allowed_users` and `settings_antispam` are
  modelled as in-memory lists; `INSERT IGNORE` against the unique key
  becomes insert-if-absent, `DELETE ... WHERE` an exact filter, and
  `ON DUPLICATE KEY UPDATE` a replace-or-insert.  The `id`, `added_by`
  and `added_at` columns of `guild_allowed_users` are bookkeeping that
  no modelled query reads, so a grant row is just its unique triple
  `(guild_id, user_id, command_name)`.
* Async I/O against Discord is modelled by its observable outcome: the
  `member.edit(timed_out_until=...)` call inside `on_message` either
  succeeds or raises, which we expose as a boolean `applyOk` parameter.
-/

namespace SecurityBot

/-- `RESTRICTED_COMMANDS` from bot.py: commands requiring allowlist/privilege. -/
def RESTRICTED_COMMANDS : List String :=
  ["shutdown", "reset", "lockdown", "unlockdown", "purge",
   "slowmode", "kick", "ban", "allow", "antispam"]

/-- One row of the `guild_allowed_users` table, reduced to its unique
triple `(guild_id, user_id, command_name)`. -/
structure GrantRow where
  guild_id : Int
  user_id : Int
  command_name : String
deriving Repr, DecidableEq

/-- One row of `settings_antispam` (minus the `guild_id` key), and also one
entry of `bot.antispam_cache`: `(enabled, messages, per_seconds, timeout_seconds)`. -/
structure AntispamCfg where
  enabled : Bool
  messages : Nat
  per_seconds : Nat
  timeout_seconds : Nat
deriving Repr, DecidableEq

/-- The column defaults of `settings_antispam`, also used at
`bot.py` line 167 and line 240: `(False, 6, 4, 30)`. -/
def defaultAntispam : AntispamCfg :=
  { enabled := false, messages := 6, per_seconds := 4, timeout_seconds := 30 }

/-- Association-list lookup (Python `dict.get` / SQL primary-key `SELECT`). -/
def lookupA {κ ν : Type} [DecidableEq κ] (k : κ) : List (κ × ν) → Option ν
  | [] => none
  | p :: ps => if p.1 = k then some p.2 else lookupA k ps

/-- Association-list update (Python `d[k] = v` / SQL upsert): replaces the
first binding of `k`, appending a new one if absent. -/
def insertA {κ ν : Type} [DecidableEq κ] (k : κ) (v : ν) :
    List (κ × ν) → List (κ × ν)
  | [] => [(k, v)]
  | p :: ps => if p.1 = k then (k, v) :: ps else p :: insertA k v ps

/-- The mutable state of the running bot: `bot.msg_window`,
`bot.antispam_cache`, and the persistent `settings_antispam` table. -/
structure BotState where
  msg_window : List ((Int × Int) × List ℚ)
  antispam_cache : List (Int × AntispamCfg)
  settings_db : List (Int × AntispamCfg)
deriving Repr, DecidableEq

/-- The anti-spam decision taken by `on_message` for one event. -/
inductive Decision where
  | noAction : Decision
  | mitigate (timeout_seconds : Nat) : Decision
deriving Repr, DecidableEq

/-- `SecurityBot.ensure_guild_antispam_row`: if the guild is cached, do
nothing; else `INSERT IGNORE` the default row and cache the defaults. -/
def ensure_guild_antispam_row (st : BotState) (gid : Int) : BotState :=
  if (lookupA gid st.antispam_cache).isSome then st
  else
    { st with
      settings_db :=
        if (lookupA gid st.settings_db).isSome then st.settings_db
        else insertA gid defaultAntispam st.settings_db,
      antispam_cache := insertA gid defaultAntispam st.antispam_cache }

/-- The pruning step of `on_message` (bot.py lines 249-250):
`window = [t for t in window if t >= cutoff]` with `cutoff = now - per_seconds`. -/
def pruneWindow (now : ℚ) (per_seconds : Nat) (w : List ℚ) : List ℚ :=
  w.filter (fun t => now - (per_seconds : ℚ) ≤ t)

/-- The config `on_message` reads for a guild: the cache entry after
`ensure_guild_antispam_row`, with the same default as `cache.get`. -/
def cfgOf (st : BotState) (gid : Int) : AntispamCfg :=
  (lookupA gid (ensure_guild_antispam_row st gid).antispam_cache).getD defaultAntispam

/-- The activity window currently stored for `(gid, uid)`
(`bot.msg_window.get(key, [])`). -/
def windowOf (st : BotState) (gid uid : Int) : List ℚ :=
  (lookupA (gid, uid) st.msg_window).getD []

/-- The `on_message` event handler (bot.py lines 232-268) for a
non-bot message in a guild.  `applyOk` records whether the
`member.edit(timed_out_until=...)` call (and the follow-up channel
send) succeeded; when it raises, the handler logs and the window reset
on line 266 is skipped. -/
def on_message (st : BotState) (gid uid : Int) (now : ℚ) (applyOk : Bool) :
    BotState × Decision :=
  let st1 := ensure_guild_antispam_row st gid
  let cfg := (lookupA gid st1.antispam_cache).getD defaultAntispam
  if !cfg.enabled then (st1, .noAction)
  else
    let key := (gid, uid)
    let window := pruneWindow now cfg.per_seconds ((lookupA key st1.msg_window).getD [] ++ [now])
    let st2 := { st1 with msg_window := insertA key window st1.msg_window }
    if window.length > cfg.messages then
      if applyOk then
        ({ st2 with msg_window := insertA key [] st2.msg_window },
         .mitigate cfg.timeout_seconds)
      else (st2, .mitigate cfg.timeout_seconds)
    else (st2, .noAction)

/-- Python `str.lower()`, modelled character-wise. -/
def pyLower (s : String) : String := String.mk (s.data.map Char.toLower)

/-- Whether a `guild_allowed_users` row matches the allowlist query of
`is_allowed` (bot.py lines 187-195):
`guild_id=%s AND user_id=%s AND (command_name=%s OR command_name='*')`,
with the lower-cased command name bound to `%s`. -/
def grantMatches (gid uid : Int) (cmdLower : String) (g : GrantRow) : Bool :=
  g.guild_id = gid && g.user_id = uid &&
    (g.command_name = cmdLower || g.command_name = "*")

/-- The DB allowlist query of `is_allowed`: whether any matching row exists. -/
def hasGrantRow (grants : List GrantRow) (gid uid : Int) (cmdLower : String) : Bool :=
  grants.any (grantMatches gid uid cmdLower)

/-- `SecurityBot.is_allowed` (bot.py lines 169-197) for an interaction
inside a guild.  `owner_id` is `interaction.guild.owner_id`; `admin` and
`manage_guild` are the actor's `guild_permissions` flags; `grants` is the
`guild_allowed_users` table. -/
def is_allowed (owner_id : Int) (uid : Int) (admin manage_guild : Bool)
    (grants : List GrantRow) (gid : Int) (command_name : String) : Bool :=
  if owner_id = uid then true
  else if admin || manage_guild then true
  else hasGrantRow grants gid uid (pyLower command_name)

/-- The `add` branch of `/allow` (bot.py lines 364-371):
`INSERT IGNORE` against the unique key `(guild_id, user_id, command_name)`:
a duplicate triple is silently left in place. -/
def grantInsert (gid uid : Int) (command_name : String) (grants : List GrantRow) :
    List GrantRow :=
  if (⟨gid, uid, command_name⟩ : GrantRow) ∈ grants then grants
  else grants ++ [⟨gid, uid, command_name⟩]

/-- The `remove` branch of `/allow` (bot.py lines 379-386):
`DELETE ... WHERE guild_id=%s AND user_id=%s AND command_name=%s`
— an exact triple match. -/
def revokeDelete (gid uid : Int) (command_name : String) (grants : List GrantRow) :
    List GrantRow :=
  grants.filter (fun g => !(g.guild_id = gid && g.user_id = uid &&
    g.command_name = command_name))

/-- The `list` branch of `/allow` (bot.py lines 394-413): all rows of the
guild when the name is `*`, else rows matching the name or `*`.  The SQL
`ORDER BY user_id` only affects presentation order and is not modelled. -/
def listGrants (gid : Int) (command_name : String) (grants : List GrantRow) :
    List (Int × String) :=
  if command_name = "*" then
    (grants.filter (fun g => g.guild_id = gid)).map
      (fun g => (g.user_id, g.command_name))
  else
    (grants.filter (fun g => g.guild_id = gid &&
        (g.command_name = command_name || g.command_name = "*"))).map
      (fun g => (g.user_id, g.command_name))

/-- The three values of the `action` choice of `/allow`. -/
inductive AllowAction where
  | add : AllowAction
  | remove : AllowAction
  | list : AllowAction
deriving Repr, DecidableEq

/-- The observable reply of one `/allow` invocation. -/
inductive AllowReply where
  | selectUser : AllowReply
  | unknownCommand (name : String) : AllowReply
  | added (uid : Int) (command_name : String) : AllowReply
  | removed (uid : Int) (command_name : String) : AllowReply
  | listing (rows : List (Int × String)) : AllowReply
deriving Repr, DecidableEq

/-- `allow_cmd` (bot.py lines 340-421) for an in-guild interaction that
passed the `require_allowed` check: resolves the optional command name
(`(command or "*").lower()`), validates it against `RESTRICTED_COMMANDS`,
then performs the add / remove / list database operation. -/
def allow_cmd (grants : List GrantRow) (gid : Int) (action : AllowAction)
    (user : Option Int) (command : Option String) : List GrantRow × AllowReply :=
  let command_name := pyLower (command.getD "*")
  if (action = .add ∨ action = .remove) ∧ user = none then
    (grants, .selectUser)
  else if command_name ≠ "*" ∧ command_name ∉ RESTRICTED_COMMANDS then
    (grants, .unknownCommand command_name)
  else
    match action, user with
    | .add, some uid => (grantInsert gid uid command_name grants, .added uid command_name)
    | .remove, some uid => (revokeDelete gid uid command_name grants, .removed uid command_name)
    | .list, _ => (grants, .listing (listGrants gid command_name grants))
    | _, none => (grants, .selectUser)

/-- `antispam_config` (bot.py lines 548-584) for an in-guild interaction:
upserts `(enabled=1, messages, per_seconds, timeout_seconds)` into
`settings_antispam` and overwrites the cache entry with
`(True, messages, per_seconds, timeout_seconds)`. -/
def antispam_config (st : BotState) (gid : Int)
    (messages per_seconds timeout_seconds : Nat) : BotState :=
  let cfg : AntispamCfg :=
    { enabled := true, messages := messages,
      per_seconds := per_seconds, timeout_seconds := timeout_seconds }
  { st with
    settings_db := insertA gid cfg st.settings_db,
    antispam_cache := insertA gid cfg st.antispam_cache }

/-! ### Helper lemmas -/

theorem lookupA_insertA_self {κ ν : Type} [DecidableEq κ] (k : κ) (v : ν)
    (l : List (κ × ν)) : lookupA k (insertA k v l) = some v := by
  induction l with
  | nil => simp [lookupA, insertA]
  | cons p ps ih => by_cases h : p.1 = k <;> simp [lookupA, insertA, h, ih]

theorem lookupA_insertA_ne {κ ν : Type} [DecidableEq κ] (k k' : κ) (v : ν)
    (l : List (κ × ν)) (h : k' ≠ k) :
    lookupA k' (insertA k v l) = lookupA k' l := by
  have hk : ¬(k = k') := fun hh => h hh.symm
  induction l with
  | nil => simp [lookupA, insertA, hk]
  | cons p ps ih =>
      by_cases hp : p.1 = k
      · have hpk : ¬(p.1 = k') := by rw [hp]; exact hk
        simp [lookupA, insertA, hp, hk, hpk]
      · simp only [insertA, if_neg hp, lookupA]
        by_cases hp' : p.1 = k' <;> simp [hp', ih]

theorem mem_pruneWindow (now : ℚ) (per_seconds : Nat) (t : ℚ) (w : List ℚ) :
    t ∈ pruneWindow now per_seconds w ↔ t ∈ w ∧ now - (per_seconds : ℚ) ≤ t := by
  simp [pruneWindow]

theorem ensure_msg_window (st : BotState) (gid : Int) :
    (ensure_guild_antispam_row st gid).msg_window = st.msg_window := by
  simp only [ensure_guild_antispam_row]
  split <;> rfl

theorem ensure_of_cached (st : BotState) (gid : Int) (cfg : AntispamCfg)
    (h : lookupA gid st.antispam_cache = some cfg) :
    ensure_guild_antispam_row st gid = st := by
  simp [ensure_guild_antispam_row, h]

theorem cfgOf_of_cached (st : BotState) (gid : Int) (cfg : AntispamCfg)
    (h : lookupA gid st.antispam_cache = some cfg) : cfgOf st gid = cfg := by
  simp [cfgOf, ensure_of_cached st gid cfg h, h]

/-! ### Claim theorems -/

/-- C3: window pruning uses an inclusive boundary: a timestamp `t` is
retained at evaluation time `now` exactly when `now - windowSeconds ≤ t`;
in particular `t` is still retained when the window is evaluated at
`t + windowSeconds` and dropped at every strictly later evaluation time. -/
theorem prune_inclusive_boundary (per_seconds : Nat) (now t : ℚ) (w : List ℚ) :
    (t ∈ pruneWindow now per_seconds w ↔ t ∈ w ∧ now - (per_seconds : ℚ) ≤ t)
    ∧ (t ∈ w → t ∈ pruneWindow (t + (per_seconds : ℚ)) per_seconds w)
    ∧ (∀ later : ℚ, t + (per_seconds : ℚ) < later →
        t ∉ pruneWindow later per_seconds w) := by
  refine ⟨mem_pruneWindow now per_seconds t w, ?_, ?_⟩
  · intro hmem
    exact (mem_pruneWindow _ _ _ _).mpr ⟨hmem, by linarith⟩
  · intro later hlt hmem
    have := ((mem_pruneWindow _ _ _ _).mp hmem).2
    linarith

theorem prune_inclusive_boundary_witness :
    (6 : ℚ) ∈ pruneWindow 10 4 [6] ∧ (6 : ℚ) ∉ pruneWindow 11 4 [6] := by
  constructor
  · have h := (prune_inclusive_boundary 4 0 6 [6]).2.1 (by simp)
    norm_num at h ⊢
    exact h
  · exact (prune_inclusive_boundary 4 0 6 [6]).2.2 11 (by norm_num)

/-- C4: for a tenant whose cached config is disabled, `on_message` takes no
action and leaves the whole activity-window store untouched. -/
theorem disabled_tenant_no_window (st : BotState) (gid uid : Int) (now : ℚ)
    (applyOk : Bool) (cfg : AntispamCfg)
    (hc : lookupA gid st.antispam_cache = some cfg)
    (hd : cfg.enabled = false) :
    (on_message st gid uid now applyOk).2 = Decision.noAction
    ∧ (on_message st gid uid now applyOk).1.msg_window = st.msg_window := by
  simp [on_message, ensure_of_cached st gid cfg hc, hc, hd]

theorem disabled_tenant_no_window_witness :
    (on_message ⟨[], [(1, defaultAntispam)], []⟩ 1 2 3 true).2 = Decision.noAction
    ∧ (on_message ⟨[], [(1, defaultAntispam)], []⟩ 1 2 3 true).1.msg_window = [] :=
  disabled_tenant_no_window ⟨[], [(1, defaultAntispam)], []⟩ 1 2 3 true
    defaultAntispam (by simp [lookupA]) rfl

/-- C9: every in-guild `antispam_config` call sets `enabled` to true in both
the persistent `settings_antispam` row and the in-memory cache entry, along
with the three numeric settings. -/
theorem antispam_config_enables (st : BotState) (gid : Int)
    (messages per_seconds timeout_seconds : Nat) :
    lookupA gid (antispam_config st gid messages per_seconds timeout_seconds).settings_db
      = some ⟨true, messages, per_seconds, timeout_seconds⟩
    ∧ lookupA gid (antispam_config st gid messages per_seconds timeout_seconds).antispam_cache
      = some ⟨true, messages, per_seconds, timeout_seconds⟩ := by
  constructor <;> simp [antispam_config, lookupA_insertA_self]

/-- C1 (counterexample): the claim says the window is reset to empty
unconditionally once the decision is Mitigate, even when applying the
timeout fails.  In the code the reset (bot.py line 266) sits inside the
`try` block after `member.edit`, so when the edit raises, the handler
decides Mitigate yet the stored window keeps its pruned contents
`[1, 2, 3]` instead of being reset to `[]`. -/
theorem mitigate_reset_unconditional_cex :
    (on_message ⟨[((1, 2), [1, 2])], [(1, ⟨true, 2, 4, 30⟩)], [(1, ⟨true, 2, 4, 30⟩)]⟩
        1 2 3 false).2 = Decision.mitigate 30
    ∧ lookupA (1, 2)
        (on_message ⟨[((1, 2), [1, 2])], [(1, ⟨true, 2, 4, 30⟩)], [(1, ⟨true, 2, 4, 30⟩)]⟩
          1 2 3 false).1.msg_window = some [1, 2, 3]
    ∧ some [(1 : ℚ), 2, 3] ≠ some ([] : List ℚ) := by
  refine ⟨?_, ?_, by simp⟩ <;>
    norm_num [on_message, ensure_guild_antispam_row, lookupA, insertA, pruneWindow]

/-- C1 (amended): once the handler decides Mitigate, the window for the
key is reset to empty when applying the timeout succeeds; when the
timeout application raises, the reset is skipped and the window keeps
its pruned contents including the triggering event. -/
theorem mitigate_reset_on_apply_success (st : BotState) (gid uid : Int)
    (now : ℚ) (t : Nat) :
    ((on_message st gid uid now true).2 = Decision.mitigate t →
      lookupA (gid, uid) (on_message st gid uid now true).1.msg_window = some [])
    ∧ ((on_message st gid uid now false).2 = Decision.mitigate t →
      lookupA (gid, uid) (on_message st gid uid now false).1.msg_window =
        some (pruneWindow now (cfgOf st gid).per_seconds (windowOf st gid uid ++ [now]))) := by
  have hmw := ensure_msg_window st gid
  have hcfg : (lookupA gid (ensure_guild_antispam_row st gid).antispam_cache).getD
      defaultAntispam = cfgOf st gid := rfl
  by_cases he : (cfgOf st gid).enabled
  · by_cases hlen : (cfgOf st gid).messages <
        (pruneWindow now (cfgOf st gid).per_seconds
          ((lookupA (gid, uid) st.msg_window).getD [] ++ [now])).length
    · constructor <;> intro hdec <;>
        simp [on_message, hmw, hcfg, he, hlen, lookupA_insertA_self, windowOf]
    · constructor <;> intro hdec <;>
        simp [on_message, hmw, hcfg, he, hlen] at hdec
  · constructor <;> intro hdec <;>
      simp [on_message, hmw, hcfg, he] at hdec

theorem mitigate_reset_on_apply_success_witness :
    lookupA (1, 2)
      (on_message ⟨[((1, 2), [1, 2])], [(1, ⟨true, 2, 4, 30⟩)], [(1, ⟨true, 2, 4, 30⟩)]⟩
        1 2 3 true).1.msg_window = some []
    ∧ lookupA (1, 2)
      (on_message ⟨[((1, 2), [1, 2])], [(1, ⟨true, 2, 4, 30⟩)], [(1, ⟨true, 2, 4, 30⟩)]⟩
        1 2 3 false).1.msg_window =
      some (pruneWindow 3
        (cfgOf ⟨[((1, 2), [1, 2])], [(1, ⟨true, 2, 4, 30⟩)], [(1, ⟨true, 2, 4, 30⟩)]⟩ 1).per_seconds
        (windowOf ⟨[((1, 2), [1, 2])], [(1, ⟨true, 2, 4, 30⟩)], [(1, ⟨true, 2, 4, 30⟩)]⟩ 1 2 ++ [3])) :=
  ⟨(mitigate_reset_on_apply_success
      ⟨[((1, 2), [1, 2])], [(1, ⟨true, 2, 4, 30⟩)], [(1, ⟨true, 2, 4, 30⟩)]⟩ 1 2 3 30).1
    (by norm_num [on_message, ensure_guild_antispam_row, lookupA, insertA, pruneWindow]),
   (mitigate_reset_on_apply_success
      ⟨[((1, 2), [1, 2])], [(1, ⟨true, 2, 4, 30⟩)], [(1, ⟨true, 2, 4, 30⟩)]⟩ 1 2 3 30).2
    (by norm_num [on_message, ensure_guild_antispam_row, lookupA, insertA, pruneWindow])⟩

/-- C2: for an enabled tenant, the handler decides Mitigate with the
tenant's configured timeout exactly when the pruned window (with the new
event appended) is strictly longer than `messages`; at `messages` exactly
it takes no action and stores the pruned window; on firing (with the
timeout applied successfully) the stored window becomes empty, so the
next event starts a fresh count of one. -/
theorem threshold_fire_and_reset (st : BotState) (gid uid : Int) (now nxt : ℚ)
    (cfg : AntispamCfg)
    (hc : lookupA gid st.antispam_cache = some cfg)
    (he : cfg.enabled = true) :
    (∀ applyOk : Bool,
       ((on_message st gid uid now applyOk).2 = Decision.mitigate cfg.timeout_seconds
         ↔ cfg.messages <
             (pruneWindow now cfg.per_seconds (windowOf st gid uid ++ [now])).length))
    ∧ (cfg.messages < (pruneWindow now cfg.per_seconds (windowOf st gid uid ++ [now])).length →
        lookupA (gid, uid) (on_message st gid uid now true).1.msg_window = some []
        ∧ pruneWindow nxt cfg.per_seconds
            (windowOf (on_message st gid uid now true).1 gid uid ++ [nxt]) = [nxt])
    ∧ (¬ cfg.messages < (pruneWindow now cfg.per_seconds (windowOf st gid uid ++ [now])).length →
        ∀ applyOk : Bool,
          (on_message st gid uid now applyOk).2 = Decision.noAction
          ∧ lookupA (gid, uid) (on_message st gid uid now applyOk).1.msg_window =
              some (pruneWindow now cfg.per_seconds (windowOf st gid uid ++ [now]))) := by
  have hens := ensure_of_cached st gid cfg hc
  have hkeep : nxt - (cfg.per_seconds : ℚ) ≤ nxt := sub_le_self _ (Nat.cast_nonneg _)
  by_cases hlen : cfg.messages <
      (pruneWindow now cfg.per_seconds
        ((lookupA (gid, uid) st.msg_window).getD [] ++ [now])).length
  · have hreset : lookupA (gid, uid) (on_message st gid uid now true).1.msg_window
        = some [] := by
      simp [on_message, hens, hc, he, hlen, lookupA_insertA_self, windowOf]
    refine ⟨fun applyOk => ?_, fun _ => ⟨hreset, ?_⟩, fun h => absurd hlen h⟩
    · cases applyOk <;> simp [on_message, hens, hc, he, hlen, windowOf]
    · simp [windowOf, hreset, pruneWindow, hkeep]
  · refine ⟨fun applyOk => ?_, fun h => absurd h hlen, fun _ applyOk => ⟨?_, ?_⟩⟩ <;>
      simp [on_message, hens, hc, he, hlen, lookupA_insertA_self, windowOf]

theorem threshold_fire_and_reset_witness :
    (on_message ⟨[((1, 2), [1, 2])], [(1, ⟨true, 2, 4, 30⟩)], [(1, ⟨true, 2, 4, 30⟩)]⟩
        1 2 3 true).2 = Decision.mitigate 30
    ∧ lookupA (1, 2)
        (on_message ⟨[((1, 2), [1, 2])], [(1, ⟨true, 2, 4, 30⟩)], [(1, ⟨true, 2, 4, 30⟩)]⟩
          1 2 3 true).1.msg_window = some [] := by
  have h := threshold_fire_and_reset
    ⟨[((1, 2), [1, 2])], [(1, ⟨true, 2, 4, 30⟩)], [(1, ⟨true, 2, 4, 30⟩)]⟩
    1 2 3 7 ⟨true, 2, 4, 30⟩ (by simp [lookupA]) rfl
  have hlen : (⟨true, 2, 4, 30⟩ : AntispamCfg).messages <
      (pruneWindow 3 (⟨true, 2, 4, 30⟩ : AntispamCfg).per_seconds
        (windowOf ⟨[((1, 2), [1, 2])], [(1, ⟨true, 2, 4, 30⟩)], [(1, ⟨true, 2, 4, 30⟩)]⟩
          1 2 ++ [3])).length := by
    norm_num [pruneWindow, windowOf, lookupA]
  exact ⟨(h.1 true).mpr hlen, (h.2.1 hlen).1⟩

theorem mem_grantInsert_self (gid uid : Int) (cmd : String) (grants : List GrantRow) :
    (⟨gid, uid, cmd⟩ : GrantRow) ∈ grantInsert gid uid cmd grants := by
  by_cases h : (⟨gid, uid, cmd⟩ : GrantRow) ∈ grants <;> simp [grantInsert, h]

theorem wildcard_allowed (owner uid : Int) (adm mg : Bool) (grants : List GrantRow)
    (gid : Int) (cmd : String)
    (hw : (⟨gid, uid, "*"⟩ : GrantRow) ∈ grants) :
    is_allowed owner uid adm mg grants gid cmd = true := by
  by_cases h1 : owner = uid
  · simp [is_allowed, h1]
  · by_cases h2 : (adm || mg) = true
    · simp [is_allowed, h1, h2]
    · simp [is_allowed, h1, h2, hasGrantRow, List.any_eq_true]
      exact ⟨_, hw, by simp [grantMatches]⟩

/-- C5: `is_allowed` follows the short-circuiting decision order: owner
first, then the administrator / manage-guild role flags, and only when
neither shortcut applies the allowlist lookup, which succeeds exactly
when a row for the lower-cased command or the wildcard exists; in the
shortcut cases the result is independent of the grant store. -/
theorem is_allowed_decision_order (owner uid : Int) (adm mg : Bool)
    (grants grants2 : List GrantRow) (gid : Int) (cmd : String) :
    (owner = uid → is_allowed owner uid adm mg grants gid cmd = true)
    ∧ (owner ≠ uid → (adm || mg) = true → is_allowed owner uid adm mg grants gid cmd = true)
    ∧ (owner ≠ uid → adm = false → mg = false →
        (is_allowed owner uid adm mg grants gid cmd = true ↔
          ∃ g ∈ grants, g.guild_id = gid ∧ g.user_id = uid ∧
            (g.command_name = pyLower cmd ∨ g.command_name = "*")))
    ∧ ((owner = uid ∨ (adm || mg) = true) →
        is_allowed owner uid adm mg grants gid cmd =
          is_allowed owner uid adm mg grants2 gid cmd) := by
  refine ⟨fun h => by simp [is_allowed, h],
    fun h hb => by simp [is_allowed, h, hb],
    fun h ha hb => ?_, fun h => ?_⟩
  · simp [is_allowed, h, ha, hb, hasGrantRow, grantMatches, List.any_eq_true]
    aesop
  · rcases h with h | h <;> simp [is_allowed, h]

theorem is_allowed_decision_order_witness :
    is_allowed 7 7 false false [] 1 "kick" = true
    ∧ is_allowed 0 2 false false [⟨1, 2, "kick"⟩] 1 "kick" = true :=
  ⟨(is_allowed_decision_order 7 7 false false [] [] 1 "kick").1 rfl,
   ((is_allowed_decision_order 0 2 false false [⟨1, 2, "kick"⟩] [] 1 "kick").2.2.1
      (by decide) rfl rfl).mpr
    ⟨⟨1, 2, "kick"⟩, by simp, rfl, rfl, Or.inl (by decide)⟩⟩

/-- C6: a wildcard grant `(tenant, actor, "*")` makes `is_allowed` return
true for that actor for every command in the restricted command set, with
no concrete per-command grant required. -/
theorem wildcard_grant_subsumes (owner uid : Int) (adm mg : Bool)
    (grants : List GrantRow) (gid : Int)
    (hw : (⟨gid, uid, "*"⟩ : GrantRow) ∈ grants) :
    ∀ cmd ∈ RESTRICTED_COMMANDS, is_allowed owner uid adm mg grants gid cmd = true :=
  fun cmd _ => wildcard_allowed owner uid adm mg grants gid cmd hw

theorem wildcard_grant_subsumes_witness :
    is_allowed 0 2 false false [⟨1, 2, "*"⟩] 1 "shutdown" = true :=
  wildcard_grant_subsumes 0 2 false false [⟨1, 2, "*"⟩] 1 (by simp) "shutdown" (by decide)

/-- C7: the revoke operation deletes by exact triple match only: a row
survives exactly when it differs from the revoked triple, so revoking a
concrete command leaves a separately held wildcard grant (and the allow
results it produces) unchanged, and revoking the wildcard leaves every
concrete grant unchanged. -/
theorem revoke_exact_triple (gid uid : Int) (cmd : String) (grants : List GrantRow) :
    (∀ row : GrantRow, row ∈ revokeDelete gid uid cmd grants ↔
        row ∈ grants ∧ row ≠ ⟨gid, uid, cmd⟩)
    ∧ (cmd ≠ "*" →
        (((⟨gid, uid, "*"⟩ : GrantRow) ∈ revokeDelete gid uid cmd grants) ↔
          (⟨gid, uid, "*"⟩ : GrantRow) ∈ grants)
        ∧ ((⟨gid, uid, "*"⟩ : GrantRow) ∈ grants →
            ∀ (owner : Int) (adm mg : Bool) (cmd2 : String),
              is_allowed owner uid adm mg (revokeDelete gid uid cmd grants) gid cmd2 = true))
    ∧ (∀ c : String, c ≠ "*" →
        (((⟨gid, uid, c⟩ : GrantRow) ∈ revokeDelete gid uid "*" grants) ↔
          (⟨gid, uid, c⟩ : GrantRow) ∈ grants)) := by
  have hmem : ∀ (cm : String) (row : GrantRow),
      row ∈ revokeDelete gid uid cm grants ↔ row ∈ grants ∧ row ≠ ⟨gid, uid, cm⟩ := by
    intro cm row
    obtain ⟨a, b, c⟩ := row
    simp [revokeDelete, List.mem_filter, GrantRow.mk.injEq]
    tauto
  refine ⟨hmem cmd, fun hcmd => ⟨?_, fun hw owner adm mg cmd2 => ?_⟩, fun c hc => ?_⟩
  · constructor
    · exact fun h => ((hmem cmd _).mp h).1
    · intro h
      exact (hmem cmd _).mpr ⟨h, by simp [GrantRow.mk.injEq]; exact fun h3 => hcmd h3.symm⟩
  · exact wildcard_allowed owner uid adm mg _ gid cmd2
      ((hmem cmd _).mpr ⟨hw, by simp [GrantRow.mk.injEq]; exact fun h3 => hcmd h3.symm⟩)
  · constructor
    · exact fun h => ((hmem "*" _).mp h).1
    · intro h
      exact (hmem "*" _).mpr ⟨h, by simp [GrantRow.mk.injEq]; exact fun h3 => hc h3⟩

theorem revoke_exact_triple_witness :
    ((⟨1, 2, "*"⟩ : GrantRow) ∈ revokeDelete 1 2 "kick" [⟨1, 2, "*"⟩, ⟨1, 2, "kick"⟩])
    ∧ is_allowed 0 2 false false
        (revokeDelete 1 2 "kick" [⟨1, 2, "*"⟩, ⟨1, 2, "kick"⟩]) 1 "ban" = true
    ∧ ((⟨1, 2, "kick"⟩ : GrantRow) ∈ revokeDelete 1 2 "*" [⟨1, 2, "*"⟩, ⟨1, 2, "kick"⟩]) :=
  have h := revoke_exact_triple 1 2 "kick" [⟨1, 2, "*"⟩, ⟨1, 2, "kick"⟩]
  have h2 := revoke_exact_triple 1 2 "*" [⟨1, 2, "*"⟩, ⟨1, 2, "kick"⟩]
  ⟨(h.2.1 (by decide)).1.mpr (by simp),
   (h.2.1 (by decide)).2 (by simp) 0 false false "ban",
   (h2.2.2 "kick" (by decide)).mpr (by simp)⟩

/-- C8: the grant operation is idempotent: inserting the same triple twice
is the same as inserting it once, the triple ends up stored exactly once,
and listing the guild's grants gives the same result either way. -/
theorem grant_idempotent (gid uid : Int) (cmd : String) (grants : List GrantRow)
    (hcount : List.count (⟨gid, uid, cmd⟩ : GrantRow) grants ≤ 1) :
    grantInsert gid uid cmd (grantInsert gid uid cmd grants) = grantInsert gid uid cmd grants
    ∧ List.count (⟨gid, uid, cmd⟩ : GrantRow) (grantInsert gid uid cmd grants) = 1
    ∧ listGrants gid "*" (grantInsert gid uid cmd (grantInsert gid uid cmd grants)) =
        listGrants gid "*" (grantInsert gid uid cmd grants) := by
  have hid : grantInsert gid uid cmd (grantInsert gid uid cmd grants) =
      grantInsert gid uid cmd grants := by
    by_cases h : (⟨gid, uid, cmd⟩ : GrantRow) ∈ grants <;> simp [grantInsert, h]
  refine ⟨hid, ?_, by rw [hid]⟩
  by_cases h : (⟨gid, uid, cmd⟩ : GrantRow) ∈ grants
  · have h1 : 0 < List.count (⟨gid, uid, cmd⟩ : GrantRow) grants :=
      List.count_pos_iff.mpr h
    simp [grantInsert, h]
    omega
  · have h0 : List.count (⟨gid, uid, cmd⟩ : GrantRow) grants = 0 :=
      List.count_eq_zero.mpr h
    simp [grantInsert, h, List.count_append, h0]

theorem grant_idempotent_witness :
    grantInsert 1 2 "kick" (grantInsert 1 2 "kick" []) = grantInsert 1 2 "kick" []
    ∧ List.count (⟨1, 2, "kick"⟩ : GrantRow) (grantInsert 1 2 "kick" []) = 1
    ∧ listGrants 1 "*" (grantInsert 1 2 "kick" (grantInsert 1 2 "kick" [])) =
        listGrants 1 "*" (grantInsert 1 2 "kick" []) :=
  grant_idempotent 1 2 "kick" [] (by simp)

/-- C10: in `/allow`, an omitted command argument defaults to the wildcard:
add, remove, and list with no command operate on the `*` grant, and an add
with no command makes the actor allowed for every restricted command. -/
theorem allow_default_wildcard (grants : List GrantRow) (gid uid : Int) :
    allow_cmd grants gid .add (some uid) none =
      (grantInsert gid uid "*" grants, .added uid "*")
    ∧ allow_cmd grants gid .remove (some uid) none =
      (revokeDelete gid uid "*" grants, .removed uid "*")
    ∧ allow_cmd grants gid .list none none =
      (grants, .listing (listGrants gid "*" grants))
    ∧ ∀ (owner : Int) (adm mg : Bool), ∀ cmd ∈ RESTRICTED_COMMANDS,
        is_allowed owner uid adm mg (allow_cmd grants gid .add (some uid) none).1
          gid cmd = true := by
  have hpy : pyLower "*" = "*" := rfl
  have hadd : allow_cmd grants gid .add (some uid) none =
      (grantInsert gid uid "*" grants, .added uid "*") := by
    simp [allow_cmd, hpy]
  refine ⟨hadd, by simp [allow_cmd, hpy], by simp [allow_cmd, hpy], ?_⟩
  intro owner adm mg cmd hcmd
  rw [hadd]
  exact wildcard_allowed owner uid adm mg _ gid cmd (mem_grantInsert_self gid uid "*" grants)

theorem allow_default_wildcard_witness :
    allow_cmd [] 1 .add (some 2) none = (grantInsert 1 2 "*" [], .added 2 "*")
    ∧ is_allowed 0 2 false false (allow_cmd [] 1 .add (some 2) none).1 1 "ban" = true :=
  have h := allow_default_wildcard [] 1 2
  ⟨h.1, h.2.2.2 0 false false "ban" (by decide)⟩

end SecurityBot
